import Mathlib

/-
Shallow embedding of the mdns-mirror reconciliation core
(src/mdns_mirror/app.py) and verification of the specification claims.

Modelling conventions:
- IPv4/IPv6 addresses are modelled as the strings that the code writes into
  DNS update messages (str(address)).
- Python dicts are association lists with insert-or-overwrite update.
- Python object identity matters: ServerInfo in the source defines no
  structural equality, so the dict of servers stores an allocation id next
  to each snapshot, and the inequality test used by service_updated compares
  allocation ids, exactly as the default Python object comparison does.
- Fallible effects (dns.query.tcp, zeroconf lookups, KeyError) are modelled
  with Except; a per-call oracle decides which DNS sends fail.
- Emitted effects are collected as explicit event traces.
-/

namespace MdnsMirror

/-- Exceptions that can be raised by the modelled code paths. -/
inductive PyExc
  | runtimeError (msg : String)
  | keyError (key : String)
  | dnsError
  deriving DecidableEq

/-- Relevant fields of a zeroconf ServiceInfo metadata record. -/
structure ServiceInfo where
  server : String
  ipv4_addresses : List String
  ipv6_addresses : List String
  host_ttl : Nat
  deriving DecidableEq

/-- ServerInfo from app.py lines 46-55: optional IPv4, optional IPv6, TTL.
The source class defines no structural equality operator. -/
structure ServerInfo where
  ipv4_address : Option String
  ipv6_address : Option String
  ttl : Option Nat
  deriving DecidableEq

/-- A dynamic-update operation sent to the DNS server. -/
inductive DnsOp
  | replaceA (name : String) (ttl : Option Nat) (addr : String)
  | replaceAAAA (name : String) (ttl : Option Nat) (addr : String)
  | deleteAll (name : String)
  deriving DecidableEq

/-- Owner name targeted by a DNS operation. -/
def dnsOpName : DnsOp → String
  | DnsOp.replaceA n _ _ => n
  | DnsOp.replaceAAAA n _ _ => n
  | DnsOp.deleteAll n => n

/-- Observable events of one reconciliation step: a store commit of a
snapshot, or a DNS mutation sent on the wire. -/
inductive Ev
  | persist (server : String) (snap : ServerInfo)
  | dns (op : DnsOp)
  deriving DecidableEq

def isDnsEv : Ev → Bool
  | Ev.persist _ _ => false
  | Ev.dns _ => true

/-- Association-list lookup, modelling Python dict access. -/
def dget (k : String) : List (String × α) → Option α
  | [] => none
  | (k2, v) :: rest => if k = k2 then some v else dget k rest

/-- Association-list insert-or-overwrite, modelling Python dict assignment. -/
def dset (k : String) (v : α) : List (String × α) → List (String × α)
  | [] => [(k, v)]
  | (k2, v2) :: rest => if k = k2 then (k, v) :: rest else (k2, v2) :: dset k v rest

/-- Association-list key removal, modelling Python del. -/
def ddel (k : String) (d : List (String × α)) : List (String × α) :=
  d.filter fun p => decide (p.1 ≠ k)

/-- MAX_RETRIES from app.py line 34. -/
def MAX_RETRIES : Nat := 3

/-- Loop body of retry (app.py lines 58-64).  The impure callable is modelled
as a function of the invocation index; the result pairs the outcome with the
number of invocations performed.  As in the source, the loop iterates
range(MAX_RETRIES) over the global constant, while the error message
interpolates the max_retries parameter. -/
def retryGo (f : Nat → Except PyExc (Option α)) (max_retries : Nat) :
    Nat → Nat → (Except PyExc α) × Nat
  | n, 0 => (Except.error (PyExc.runtimeError s!"no result returned after {max_retries} retries"), n)
  | n, fuel + 1 =>
    match f n with
    | Except.error e => (Except.error e, n + 1)
    | Except.ok none => retryGo f max_retries (n + 1) fuel
    | Except.ok (some r) => (Except.ok r, n + 1)

/-- retry from app.py lines 58-64. -/
def retry (f : Nat → Except PyExc (Option α)) (max_retries : Nat) :
    (Except PyExc α) × Nat :=
  retryGo f max_retries 0 MAX_RETRIES

/-- First dot-delimited label: Python server.split(".")[0]
(app.py lines 137-138 and 163-164). -/
def firstLabel (server : String) : String :=
  String.mk (server.data.takeWhile fun c => decide (c ≠ '.'))

/-- DNS operations issued by server_updated (app.py lines 136-160):
a ReplaceA when an IPv4 address is present, then a ReplaceAAAA when an IPv6
address is present, each against the first label of the server name. -/
def server_updated (server : String) (server_info : ServerInfo) : List DnsOp :=
  let server_name := firstLabel server
  (match server_info.ipv4_address with
   | some a => [DnsOp.replaceA server_name server_info.ttl a]
   | none => []) ++
  (match server_info.ipv6_address with
   | some a => [DnsOp.replaceAAAA server_name server_info.ttl a]
   | none => [])

/-- DNS operation issued by server_removed (app.py lines 162-170). -/
def server_removed (server : String) (_server_info : ServerInfo) : List DnsOp :=
  [DnsOp.deleteAll (firstLabel server)]

/-- Sends a list of DNS operations one after another over dns.query.tcp.
The oracle says which call fails with a transport error; a failure raises,
so later operations are not attempted. -/
def issueGo (fail : Nat → Bool) : Nat → List DnsOp → List Ev × Except PyExc Unit
  | _, [] => ([], Except.ok ())
  | k, op :: rest =>
    if fail k then ([Ev.dns op], Except.error PyExc.dnsError)
    else
      let r := issueGo fail (k + 1) rest
      (Ev.dns op :: r.1, r.2)

def issue (fail : Nat → Bool) (ops : List DnsOp) : List Ev × Except PyExc Unit :=
  issueGo fail 0 ops

/-- Mutable state of mirror_mdns: the services dict, the servers dict
(each entry carrying the allocation id of the stored ServerInfo object),
the allocation counter, and the two lifecycle flags. -/
structure St where
  services : List (String × ServiceInfo)
  servers : List (String × Nat × ServerInfo)
  counter : Nat
  error_event : Bool
  exit_event : Bool
  deriving DecidableEq

/-- Initial state of mirror_mdns (app.py lines 73-74 and 113-114). -/
def st0 : St := ⟨[], [], 0, false, false⟩

/-- Candidate snapshot built from metadata (app.py lines 177-185):
first IPv4 address if any, first IPv6 address if any, host TTL. -/
def snapOf (service_info : ServiceInfo) : ServerInfo :=
  ⟨service_info.ipv4_addresses.head?, service_info.ipv6_addresses.head?,
   some service_info.host_ttl⟩

/-- service_updated (app.py lines 172-189).  A fresh ServerInfo object is
allocated (id = counter); the source comparison
servers.get(server, None) != server_info falls back to object identity
because ServerInfo defines no structural equality, so the stored object,
whose id predates the fresh id, never compares equal to the fresh object. -/
def service_updated (st : St) (fail : Nat → Bool) (name : String)
    (service_info : ServiceInfo) : St × List Ev × Except PyExc Unit :=
  let services := dset name service_info st.services
  let server := service_info.server
  let server_info := snapOf service_info
  let fresh := st.counter
  let differs : Bool :=
    match dget server st.servers with
    | none => true
    | some p => decide (p.1 ≠ fresh)
  if differs then
    let servers := dset server (fresh, server_info) st.servers
    let r := issue fail (server_updated server server_info)
    ({ st with services := services, servers := servers, counter := st.counter + 1 },
     Ev.persist server server_info :: r.1, r.2)
  else
    ({ st with services := services, counter := st.counter + 1 }, [], Except.ok ())

/-- service_removed (app.py lines 191-201).  Looking up a name absent from
the services dict raises KeyError.  When the server of the removed instance
has a stored snapshot, the snapshot is deleted and a DeleteAll is issued. -/
def service_removed (st : St) (fail : Nat → Bool) (name : String) :
    St × List Ev × Except PyExc Unit :=
  match dget name st.services with
  | none => (st, [], Except.error (PyExc.keyError name))
  | some service_info =>
    let services := ddel name st.services
    let server := service_info.server
    match dget server st.servers with
    | none => ({ st with services := services }, [], Except.ok ())
    | some p =>
      let servers := ddel server st.servers
      let r := issue fail (server_removed server p.2)
      ({ st with services := services, servers := servers }, r.1, r.2)

inductive StateChange
  | added
  | removed
  | updated
  deriving DecidableEq

/-- on_service_instance_state_change (app.py lines 203-238): the handler
body runs under a try/except that, on any exception, logs a fatal error and
sets the error event flag. -/
def on_service_instance_state_change (st : St) (fail : Nat → Bool)
    (getInfo : Nat → Except PyExc (Option ServiceInfo)) (name : String)
    (state_change : StateChange) : St × List Ev :=
  match state_change with
  | StateChange.added =>
    (match retry getInfo MAX_RETRIES with
     | (Except.error _, _) => ({ st with error_event := true }, [])
     | (Except.ok service_info, _) =>
       match service_updated st fail name service_info with
       | (st2, evs, Except.ok _) => (st2, evs)
       | (st2, evs, Except.error _) => ({ st2 with error_event := true }, evs))
  | StateChange.removed =>
    (match service_removed st fail name with
     | (st2, evs, Except.ok _) => (st2, evs)
     | (st2, evs, Except.error _) => ({ st2 with error_event := true }, evs))
  | StateChange.updated =>
    (match retry getInfo MAX_RETRIES with
     | (Except.error _, _) => ({ st with error_event := true }, [])
     | (Except.ok service_info, _) =>
       match service_updated st fail name service_info with
       | (st2, evs, Except.ok _) => (st2, evs)
       | (st2, evs, Except.error _) => ({ st2 with error_event := true }, evs))

/-- Guard of the main loop (app.py line 246):
while not (exit_event.is_set() or error_event.is_set()). -/
def loop_running (st : St) : Bool :=
  !(st.exit_event || st.error_event)

/-- A zone resource record set as seen by the sweep: owner name and type. -/
inductive RdType
  | A
  | AAAA
  | other (code : Nat)
  deriving DecidableEq

structure Rrset where
  name : String
  rdtype : RdType
  deriving DecidableEq

def isAorAAAA (r : Rrset) : Bool :=
  decide (r.rdtype = RdType.A) || decide (r.rdtype = RdType.AAAA)

/-- A dynamic-update delete of all records at a name, applied to the zone. -/
def applyDelete (zone : List Rrset) (name : String) : List Rrset :=
  zone.filter fun r => decide (r.name ≠ name)

/-- remove_all_a_records (app.py lines 87-108): the zone transfer answer is
scanned, the owner name of every A or AAAA rrset is appended to
record_names (one entry per rrset, without deduplication), and then one
delete-all-records-at-name update is sent per collected entry.  Returns the
zone after the deletes together with the list of issued operations. -/
def remove_all_a_records (zone : List Rrset) : List Rrset × List DnsOp :=
  let record_names := (zone.filter isAorAAAA).map Rrset.name
  (record_names.foldl applyDelete zone, record_names.map DnsOp.deleteAll)

/-- A reconciler-level operation: an instance upsert (Added/Updated with
resolved metadata) or an instance removal. -/
inductive Op
  | upsert (name : String) (service_info : ServiceInfo)
  | remove (name : String)
  deriving DecidableEq

def nofail : Nat → Bool := fun _ => false

/-- Sets the error flag exactly when the step raised, as the surrounding
try/except of the event handler does. -/
def withErrFlag (r : St × List Ev × Except PyExc Unit) : St :=
  match r.2.2 with
  | Except.ok _ => r.1
  | Except.error _ => { r.1 with error_event := true }

def runOp (st : St) : Op → St
  | Op.upsert name si => withErrFlag (service_updated st nofail name si)
  | Op.remove name => withErrFlag (service_removed st nofail name)

/-- Runs a sequence of reconciler operations; once the error flag is set the
main loop exits, so later events are not processed. -/
def runOps (st : St) : List Op → St
  | [] => st
  | op :: rest => if st.error_event then st else runOps (runOp st op) rest

/-- The spec invariant of section 3: a snapshot exists in the servers store
iff some live instance in the services store references that server. -/
def StoreInv (st : St) : Prop :=
  ∀ s, (dget s st.servers).isSome ↔
    ∃ n si, dget n st.services = some si ∧ si.server = s

/-- Every allocation id stored in the servers dict predates the counter. -/
def IdsBelow (st : St) : Prop :=
  ∀ p ∈ st.servers, p.2.1 < st.counter

deriving instance DecidableEq for Except

/- Association-list lemmas. -/

theorem dget_dset_self (k : String) (v : α) (d : List (String × α)) :
    dget k (dset k v d) = some v := by
  induction d with
  | nil => simp [dget, dset]
  | cons p rest ih =>
    obtain ⟨k2, v2⟩ := p
    by_cases h : k = k2
    · subst h; simp [dset, dget]
    · simp [dset, dget, h, ih]

theorem dget_dset_ne (k q : String) (v : α) (d : List (String × α)) (h : q ≠ k) :
    dget q (dset k v d) = dget q d := by
  induction d with
  | nil => simp [dget, dset, h]
  | cons p rest ih =>
    obtain ⟨k2, v2⟩ := p
    by_cases hk : k = k2
    · subst hk; simp [dset, dget, h, ih]
    · by_cases hq : q = k2
      · subst hq; simp [dset, dget, hk, h]
      · simp [dset, dget, hk, hq, ih]

theorem dget_ddel_self (k : String) (d : List (String × α)) :
    dget k (ddel k d) = none := by
  induction d with
  | nil => simp [dget, ddel]
  | cons p rest ih =>
    obtain ⟨k2, v2⟩ := p
    by_cases h : k2 = k
    · subst h; simpa [ddel, List.filter] using ih
    · have hk : k ≠ k2 := fun h2 => h h2.symm
      simpa [ddel, List.filter, h, dget, hk] using ih

theorem dget_ddel_ne (k q : String) (d : List (String × α)) (h : q ≠ k) :
    dget q (ddel k d) = dget q d := by
  induction d with
  | nil => simp [dget, ddel]
  | cons p rest ih =>
    obtain ⟨k2, v2⟩ := p
    by_cases hk : k2 = k
    · subst hk
      have : q ≠ k2 := h
      simpa [ddel, List.filter, dget, this] using ih
    · by_cases hq : q = k2
      · subst hq; simp [ddel, List.filter, hk, dget]
      · simpa [ddel, List.filter, hk, dget, hq] using ih

theorem mem_dset (p : String × α) (k : String) (v : α) (d : List (String × α)) :
    p ∈ dset k v d → p = (k, v) ∨ p ∈ d := by
  induction d with
  | nil => intro h; simpa [dset] using h
  | cons q rest ih =>
    obtain ⟨k2, v2⟩ := q
    by_cases hk : k = k2
    · subst hk
      intro h
      rcases List.mem_cons.1 (by simpa [dset] using h) with h2 | h2
      · exact Or.inl h2
      · exact Or.inr (List.mem_cons_of_mem _ h2)
    · intro h
      rcases List.mem_cons.1 (by simpa [dset, hk] using h) with h2 | h2
      · exact Or.inr (by simp [h2])
      · rcases ih h2 with h3 | h3
        · exact Or.inl h3
        · exact Or.inr (List.mem_cons_of_mem _ h3)

theorem mem_ddel (p : String × α) (k : String) (d : List (String × α)) :
    p ∈ ddel k d → p ∈ d :=
  fun h => (List.mem_filter.1 h).1

theorem dget_mem (k : String) (v : α) (d : List (String × α)) :
    dget k d = some v → (k, v) ∈ d := by
  induction d with
  | nil => intro h; simp [dget] at h
  | cons q rest ih =>
    obtain ⟨k2, v2⟩ := q
    by_cases hk : k = k2
    · subst hk
      intro h
      simp [dget] at h
      simp [h]
    · intro h
      simp [dget, hk] at h
      exact List.mem_cons_of_mem _ (ih h)

/- Unfolding lemmas for the reconciler steps. -/

theorem service_updated_state (st : St) (f : Nat → Bool) (name : String) (si : ServiceInfo)
    (h : ∀ p, dget si.server st.servers = some p → p.1 ≠ st.counter) :
    (service_updated st f name si).1 =
      { st with services := dset name si st.services,
                servers := dset si.server (st.counter, snapOf si) st.servers,
                counter := st.counter + 1 } := by
  unfold service_updated
  cases hd : dget si.server st.servers with
  | none => simp [hd]
  | some p => simp [hd, h p hd]

theorem service_updated_evs (st : St) (f : Nat → Bool) (name : String) (si : ServiceInfo)
    (h : ∀ p, dget si.server st.servers = some p → p.1 ≠ st.counter) :
    (service_updated st f name si).2.1 =
      Ev.persist si.server (snapOf si)
        :: (issue f (server_updated si.server (snapOf si))).1 := by
  unfold service_updated
  cases hd : dget si.server st.servers with
  | none => simp [hd]
  | some p => simp [hd, h p hd]

theorem service_removed_absent (st : St) (f : Nat → Bool) (name : String)
    (h : dget name st.services = none) :
    service_removed st f name = (st, [], Except.error (PyExc.keyError name)) := by
  unfold service_removed
  simp [h]

theorem service_removed_state_present (st : St) (f : Nat → Bool) (name : String)
    (si : ServiceInfo) (p : Nat × ServerInfo)
    (h1 : dget name st.services = some si) (h2 : dget si.server st.servers = some p) :
    (service_removed st f name).1
      = { st with services := ddel name st.services,
                  servers := ddel si.server st.servers } := by
  unfold service_removed
  simp [h1, h2]

theorem issueGo_dns (f : Nat → Bool) :
    ∀ (ops : List DnsOp) (k : Nat), ∀ e ∈ (issueGo f k ops).1, isDnsEv e = true := by
  intro ops
  induction ops with
  | nil => intro k e he; simp [issueGo] at he
  | cons op rest ih =>
    intro k e he
    by_cases hf : f k
    · simp [issueGo, hf] at he
      simp [he, isDnsEv]
    · simp [issueGo, hf] at he
      rcases he with he | he
      · simp [he, isDnsEv]
      · exact ih (k + 1) e he

/- Invariant machinery for the store invariant claim.  GoodSt bundles the
allocation-id bound, the condition that every live instance has the server
assigned by srv, and the spec invariant. -/

def GoodSt (srv : String → String) (st : St) : Prop :=
  IdsBelow st ∧ (∀ p ∈ st.services, p.2.server = srv p.1) ∧ StoreInv st

theorem goodSt_error_event (srv : String → String) (st : St) (b : Bool) :
    GoodSt srv { st with error_event := b } ↔ GoodSt srv st := Iff.rfl

theorem goodSt_withErrFlag (srv : String → String) (r : St × List Ev × Except PyExc Unit) :
    GoodSt srv (withErrFlag r) ↔ GoodSt srv r.1 := by
  unfold withErrFlag
  cases r.2.2 with
  | error e => exact goodSt_error_event srv r.1 true
  | ok u => exact Iff.rfl

theorem goodSt_upsert_next (srv : String → String)
    (st : St) (name : String) (si : ServiceInfo) (hsrv : si.server = srv name)
    (hG : GoodSt srv st) :
    GoodSt srv { st with services := dset name si st.services,
                         servers := dset si.server (st.counter, snapOf si) st.servers,
                         counter := st.counter + 1 } := by
  obtain ⟨hIds, hRefs, hInv⟩ := hG
  refine ⟨?_, ?_, ?_⟩
  · intro p hp
    rcases mem_dset p si.server (st.counter, snapOf si) st.servers hp with h | h
    · subst h; exact Nat.lt_succ_self _
    · exact Nat.lt_succ_of_lt (hIds p h)
  · intro p hp
    rcases mem_dset p name si st.services hp with h | h
    · subst h; simpa using hsrv
    · exact hRefs p h
  · intro s
    show (dget s (dset si.server (st.counter, snapOf si) st.servers)).isSome ↔ _
    by_cases hs : s = si.server
    · subst hs
      rw [dget_dset_self]
      constructor
      · intro _; exact ⟨name, si, by rw [dget_dset_self], rfl⟩
      · intro _; rfl
    · rw [dget_dset_ne si.server s _ st.servers hs]
      have hiff : (∃ m sm, dget m (dset name si st.services) = some sm ∧ sm.server = s)
          ↔ (∃ m sm, dget m st.services = some sm ∧ sm.server = s) := by
        constructor
        · rintro ⟨m, sm, hm, hsm⟩
          by_cases hmn : m = name
          · subst hmn
            rw [dget_dset_self] at hm
            injection hm with h2
            subst h2
            exact absurd (hsm.symm.trans rfl) (by rw [← hsm]; exact fun h3 => hs (hsm ▸ rfl))
          · rw [dget_dset_ne name m si st.services hmn] at hm
            exact ⟨m, sm, hm, hsm⟩
        · rintro ⟨m, sm, hm, hsm⟩
          have hmn : m ≠ name := by
            intro hEq
            subst hEq
            have h3 : sm.server = srv m := hRefs (m, sm) (dget_mem m sm st.services hm)
            exact hs (by rw [← hsm, h3, ← hsrv])
          exact ⟨m, sm, by rw [dget_dset_ne name m si st.services hmn]; exact hm, hsm⟩
      rw [hiff]
      exact hInv s

theorem goodSt_remove_next (srv : String → String) (hinj : Function.Injective srv)
    (st : St) (name : String) (si : ServiceInfo)
    (h1 : dget name st.services = some si) (hG : GoodSt srv st) :
    GoodSt srv { st with services := ddel name st.services,
                         servers := ddel si.server st.servers } := by
  obtain ⟨hIds, hRefs, hInv⟩ := hG
  have hsrv : si.server = srv name := hRefs (name, si) (dget_mem name si st.services h1)
  refine ⟨?_, ?_, ?_⟩
  · intro p hp; exact hIds p (mem_ddel p si.server st.servers hp)
  · intro p hp; exact hRefs p (mem_ddel p name st.services hp)
  · intro t
    show (dget t (ddel si.server st.servers)).isSome ↔ _
    by_cases ht : t = si.server
    · subst ht
      rw [dget_ddel_self]
      simp only [Option.isSome_none, Bool.false_eq_true, false_iff]
      rintro ⟨m, sm, hm, hsm⟩
      by_cases hmn : m = name
      · subst hmn; rw [dget_ddel_self] at hm; cases hm
      · rw [dget_ddel_ne name m st.services hmn] at hm
        have h3 : sm.server = srv m := hRefs (m, sm) (dget_mem m sm st.services hm)
        rw [h3, hsrv] at hsm
        exact hmn (hinj hsm)
    · rw [dget_ddel_ne si.server t st.servers ht, hInv t]
      constructor
      · rintro ⟨m, sm, hm, hsm⟩
        have hmn : m ≠ name := by
          intro hEq
          subst hEq
          rw [h1] at hm
          injection hm with h2
          subst h2
          exact ht hsm.symm
        exact ⟨m, sm, by rw [dget_ddel_ne name m st.services hmn]; exact hm, hsm⟩
      · rintro ⟨m, sm, hm, hsm⟩
        have hmn : m ≠ name := by
          intro hEq
          subst hEq
          rw [dget_ddel_self] at hm
          cases hm
        rw [dget_ddel_ne name m st.services hmn] at hm
        exact ⟨m, sm, hm, hsm⟩

theorem goodSt_runOp (srv : String → String) (hinj : Function.Injective srv)
    (st : St) (op : Op)
    (hsv : ∀ n si, op = Op.upsert n si → si.server = srv n)
    (hG : GoodSt srv st) : GoodSt srv (runOp st op) := by
  cases op with
  | upsert name si =>
    have hsrv := hsv name si rfl
    show GoodSt srv (withErrFlag (service_updated st nofail name si))
    rw [goodSt_withErrFlag]
    rw [service_updated_state st nofail name si
      (fun p hp => Nat.ne_of_lt (hG.1 (si.server, p) (dget_mem _ _ _ hp)))]
    exact goodSt_upsert_next srv st name si hsrv hG
  | remove name =>
    show GoodSt srv (withErrFlag (service_removed st nofail name))
    rw [goodSt_withErrFlag]
    cases h1 : dget name st.services with
    | none =>
      rw [show (service_removed st nofail name).1 = st from by
        rw [service_removed_absent st nofail name h1]]
      exact hG
    | some si =>
      have hsnap : (dget si.server st.servers).isSome = true :=
        (hG.2.2 si.server).2 ⟨name, si, h1, rfl⟩
      cases h2 : dget si.server st.servers with
      | none => rw [h2] at hsnap; simp at hsnap
      | some p =>
        rw [service_removed_state_present st nofail name si p h1 h2]
        exact goodSt_remove_next srv hinj st name si h1 hG

theorem goodSt_runOps (srv : String → String) (hinj : Function.Injective srv) :
    ∀ (ops : List Op) (st : St),
      (∀ n si, Op.upsert n si ∈ ops → si.server = srv n) →
      GoodSt srv st → GoodSt srv (runOps st ops) := by
  intro ops
  induction ops with
  | nil => intro st _ hG; exact hG
  | cons op rest ih =>
    intro st hops hG
    show GoodSt srv (if st.error_event then st else runOps (runOp st op) rest)
    by_cases he : st.error_event
    · rw [if_pos he]; exact hG
    · rw [if_neg he]
      exact ih (runOp st op) (fun n si h => hops n si (List.mem_cons_of_mem op h))
        (goodSt_runOp srv hinj st op
          (fun n si h => hops n si (by rw [← h]; exact List.mem_cons_self op rest)) hG)

theorem goodSt_st0 (srv : String → String) : GoodSt srv st0 := by
  refine ⟨?_, ?_, ?_⟩
  · intro p hp; simp [st0] at hp
  · intro p hp; simp [st0] at hp
  · intro s; simp [st0, dget]

/- Lemma for the retry error-propagation claim: if the first k invocations
return empty and invocation k raises, the loop stops with that exception
after exactly k + 1 invocations. -/

theorem retryGo_error {α : Type} (f : Nat → Except PyExc (Option α)) (m : Nat) (e : PyExc) :
    ∀ (k n fuel : Nat), k < fuel → (∀ j, j < k → f (n + j) = Except.ok none) →
      f (n + k) = Except.error e →
      retryGo f m n fuel = (Except.error e, n + k + 1) := by
  intro k
  induction k with
  | zero =>
    intro n fuel hk hnone herr
    cases fuel with
    | zero => omega
    | succ fuel2 =>
      unfold retryGo
      rw [show n + 0 = n from rfl] at herr
      rw [herr]
  | succ k2 ih =>
    intro n fuel hk hnone herr
    cases fuel with
    | zero => omega
    | succ fuel2 =>
      unfold retryGo
      have h0 : f n = Except.ok none := by
        have := hnone 0 (Nat.succ_pos k2)
        simpa using this
      rw [h0]
      have hrec := ih (n + 1) fuel2 (by omega)
        (fun j hj => by
          rw [show n + 1 + j = n + (j + 1) by omega]
          exact hnone (j + 1) (by omega))
        (by rw [show n + 1 + k2 = n + (k2 + 1) by omega]; exact herr)
      rw [hrec]
      refine Prod.ext rfl ?_
      simp
      omega

/- Concrete inputs used by the claim theorems and witnesses. -/

def alwaysNone : Nat → Except PyExc (Option Unit) := fun _ => Except.ok none

def failAt1 : Nat → Except PyExc (Option Unit) :=
  fun j => if j = 0 then Except.ok none else Except.error PyExc.dnsError

def gNone : Nat → Except PyExc (Option ServiceInfo) := fun _ => Except.ok none

def mdEx : ServiceInfo := ⟨"host1.local", ["10.0.0.5"], [], 120⟩

/-- Claim C3 (code bug): with max_retries set to 1 and an operation that
always returns an empty result, retry still performs MAX_RETRIES = 3
invocations before failing, because the source loop iterates
range(MAX_RETRIES) over the global constant instead of the max_retries
parameter; the raised error message even reports the ignored parameter
value 1. -/
theorem C3_code_eval :
    (retry alwaysNone 1).2 = 3
    ∧ (retry alwaysNone 1).1
        = Except.error (PyExc.runtimeError "no result returned after 1 retries") := by
  decide

/-- Claim C10: if the wrapped operation raises on invocation k after k empty
results, retry propagates that exception immediately with exactly k + 1
invocations, for any max_retries argument; only empty results trigger
further attempts. -/
theorem C10_theorem {α : Type} (f : Nat → Except PyExc (Option α)) (m k : Nat) (e : PyExc)
    (hk : k < MAX_RETRIES) (hnone : ∀ j, j < k → f j = Except.ok none)
    (herr : f k = Except.error e) :
    retry f m = (Except.error e, k + 1) := by
  unfold retry
  have := retryGo_error f m e k 0 MAX_RETRIES hk (by simpa using hnone) (by simpa using herr)
  simpa using this

/-- Witness for C10 at a concrete operation that is empty once and then
raises a transport error. -/
theorem C10_witness : retry failAt1 7 = (Except.error PyExc.dnsError, 2) :=
  C10_theorem failAt1 7 1 PyExc.dnsError (by decide) (by decide) (by decide)

/-- Claim C1 (code bug): after an upsert, the stored snapshot is
structurally identical to the candidate snapshot of a second upsert with the
same metadata, yet the second call persists again and issues a second DNS
mutation sequence (a ReplaceA here), because ServerInfo defines no
structural equality and the inequality test in service_updated compares
object identity, which is always true for a freshly built snapshot. -/
theorem C1_code_eval :
    ((dget "host1.local" (service_updated st0 nofail "inst" mdEx).1.servers).map Prod.snd
        = some (snapOf mdEx))
    ∧ (service_updated (service_updated st0 nofail "inst" mdEx).1 nofail "inst" mdEx).2.1
        = [Ev.persist "host1.local" (snapOf mdEx),
           Ev.dns (DnsOp.replaceA "host1" (some 120) "10.0.0.5")] := by
  decide

def isReplaceA : DnsOp → Bool
  | DnsOp.replaceA _ _ _ => true
  | _ => false

def isReplaceAAAA : DnsOp → Bool
  | DnsOp.replaceAAAA _ _ _ => true
  | _ => false

def isDeleteAll : DnsOp → Bool
  | DnsOp.deleteAll _ => true
  | _ => false

/-- Claim C6: the mutation sequence of server_updated contains an A replace
exactly when the candidate has an IPv4 address, an AAAA replace exactly when
it has an IPv6 address, and never any delete operation: an address family
absent from the candidate is left untouched. -/
theorem C6_theorem (server : String) (si : ServerInfo) :
    ((server_updated server si).any isReplaceA = si.ipv4_address.isSome)
    ∧ ((server_updated server si).any isReplaceAAAA = si.ipv6_address.isSome)
    ∧ ((server_updated server si).any isDeleteAll = false) := by
  cases h4 : si.ipv4_address <;> cases h6 : si.ipv6_address <;>
    simp [server_updated, h4, h6, isReplaceA, isReplaceAAAA, isDeleteAll]

/-- Claim C7: a removal event for an instance with no stored ServiceInfo
record makes the handler set the fatal-error flag (the KeyError raised by
the services lookup is caught by the try/except), and the main loop guard
then fails, so the process terminates instead of ignoring the event. -/
theorem C7_theorem (st : St) (f : Nat → Bool)
    (g : Nat → Except PyExc (Option ServiceInfo)) (name : String)
    (h : dget name st.services = none) :
    (on_service_instance_state_change st f g name StateChange.removed).1.error_event = true
    ∧ loop_running (on_service_instance_state_change st f g name StateChange.removed).1
        = false := by
  have hr : service_removed st f name = (st, [], Except.error (PyExc.keyError name)) :=
    service_removed_absent st f name h
  constructor
  · show (match service_removed st f name with
      | (st2, evs, Except.ok _) => (st2, evs)
      | (st2, evs, Except.error _) => ({ st2 with error_event := true }, evs)).1.error_event
        = true
    rw [hr]
  · show loop_running (match service_removed st f name with
      | (st2, evs, Except.ok _) => (st2, evs)
      | (st2, evs, Except.error _) => ({ st2 with error_event := true }, evs)).1 = false
    rw [hr]
    simp [loop_running]

/-- Witness for C7: a removal event for a name in the empty initial state. -/
theorem C7_witness :
    (on_service_instance_state_change st0 nofail gNone "ghost" StateChange.removed).1.error_event
        = true
    ∧ loop_running
        (on_service_instance_state_change st0 nofail gNone "ghost" StateChange.removed).1
        = false :=
  C7_theorem st0 nofail gNone "ghost" (by decide)

/- Zone sweep lemmas. -/

theorem remove_all_fst (zone : List Rrset) :
    (remove_all_a_records zone).1
      = ((zone.filter isAorAAAA).map Rrset.name).foldl applyDelete zone := rfl

theorem remove_all_snd (zone : List Rrset) :
    (remove_all_a_records zone).2
      = ((zone.filter isAorAAAA).map Rrset.name).map DnsOp.deleteAll := rfl

theorem mem_applyDelete (r : Rrset) (zone : List Rrset) (n : String) :
    r ∈ applyDelete zone n ↔ r ∈ zone ∧ r.name ≠ n := by
  simp [applyDelete, List.mem_filter]

theorem mem_foldl_applyDelete (ns : List String) : ∀ (zone : List Rrset) (r : Rrset),
    r ∈ ns.foldl applyDelete zone ↔ r ∈ zone ∧ r.name ∉ ns := by
  induction ns with
  | nil => intro zone r; simp
  | cons n rest ih =>
    intro zone r
    rw [List.foldl_cons, ih, mem_applyDelete]
    simp only [List.mem_cons]
    constructor
    · rintro ⟨⟨hz, hn⟩, hrest⟩
      exact ⟨hz, fun h => h.elim hn (fun h2 => hrest h2)⟩
    · rintro ⟨hz, hni⟩
      exact ⟨⟨hz, fun h => hni (Or.inl h)⟩, fun h => hni (Or.inr h)⟩

theorem sweep_no_ops_of_clean (zone : List Rrset)
    (h : ∀ r ∈ zone, isAorAAAA r = false) :
    (remove_all_a_records zone).2 = [] := by
  rw [remove_all_snd]
  have hfil : zone.filter isAorAAAA = [] :=
    List.filter_eq_nil_iff.2 (by intro r hr; simp [h r hr])
  rw [hfil]
  rfl

/-- Claim C8: the zone sweep is idempotent: a second run right after a first
one issues zero delete operations, and a run against a zone already free of
A and AAAA records issues no operations at all. -/
theorem C8_theorem :
    (∀ zone : List Rrset, (remove_all_a_records (remove_all_a_records zone).1).2 = [])
    ∧ (∀ zone : List Rrset, (∀ r ∈ zone, isAorAAAA r = false) →
        (remove_all_a_records zone).2 = []) := by
  constructor
  · intro zone
    apply sweep_no_ops_of_clean
    intro r hr
    rw [remove_all_fst] at hr
    obtain ⟨hz, hni⟩ := (mem_foldl_applyDelete _ _ _).1 hr
    by_contra hne
    have htrue : isAorAAAA r = true := by
      revert hne; cases isAorAAAA r <;> simp
    exact hni (List.mem_map.2 ⟨r, List.mem_filter.2 ⟨hz, htrue⟩, rfl⟩)
  · exact sweep_no_ops_of_clean

def zoneEx : List Rrset :=
  [⟨"stale", RdType.A⟩, ⟨"host2", RdType.AAAA⟩, ⟨"keep", RdType.other 16⟩]

def zoneClean : List Rrset := [⟨"keep", RdType.other 16⟩]

/-- Witness for C8 on a concrete zone with A, AAAA and TXT-like records, and
on a concrete zone with no A or AAAA records. -/
theorem C8_witness :
    (remove_all_a_records (remove_all_a_records zoneEx).1).2 = []
    ∧ (remove_all_a_records zoneClean).2 = [] :=
  ⟨C8_theorem.1 zoneEx, C8_theorem.2 zoneClean (by decide)⟩

def zoneBoth : List Rrset := [⟨"stale", RdType.A⟩, ⟨"stale", RdType.AAAA⟩]

/-- Counterexample to claim C9 as stated: a zone whose single owner name
holds both an A rrset and an AAAA rrset receives two delete operations from
the sweep, not exactly one, because the source appends the owner name to
record_names once per rrset without deduplication. -/
theorem C9_counterexample :
    (remove_all_a_records zoneBoth).2
        = [DnsOp.deleteAll "stale", DnsOp.deleteAll "stale"]
    ∧ ¬((remove_all_a_records zoneBoth).2.length = 1) := by
  decide

/-- Claim C9 (amended): the sweep issues exactly one delete operation per
A or AAAA rrset of the transfer result, so an owner name holding both an A
rrset and an AAAA rrset receives two delete operations, and a delete is
issued for a name exactly when that name holds at least one A or AAAA
record; names holding only other record types get none. -/
theorem C9_amended_theorem (zone : List Rrset) :
    ((remove_all_a_records zone).2.length = (zone.filter isAorAAAA).length)
    ∧ ∀ n, DnsOp.deleteAll n ∈ (remove_all_a_records zone).2 ↔
        ∃ r, r ∈ zone ∧ isAorAAAA r = true ∧ r.name = n := by
  constructor
  · rw [remove_all_snd]
    simp
  · intro n
    rw [remove_all_snd]
    constructor
    · intro h
      obtain ⟨m, hm, hmn⟩ := List.mem_map.1 h
      obtain ⟨r, hr, hrn⟩ := List.mem_map.1 hm
      obtain ⟨hz, ht⟩ := List.mem_filter.1 hr
      injection hmn with h2
      exact ⟨r, hz, ht, hrn.trans h2⟩
    · rintro ⟨r, hz, ht, hrn⟩
      exact List.mem_map.2 ⟨r.name,
        List.mem_map.2 ⟨r, List.mem_filter.2 ⟨hz, ht⟩, rfl⟩, by rw [hrn]⟩

def mdShared : ServiceInfo := ⟨"h.local", ["10.0.0.5"], [], 120⟩

/-- Counterexample to claim C2 as stated: two instances n1 and n2 share the
server h.local; removing n1 deletes the shared snapshot, so afterwards n2 is
a live instance referencing h.local while no snapshot for h.local exists:
the store invariant fails. -/
theorem C2_counterexample :
    ¬ StoreInv (runOps st0 [Op.upsert "n1" mdShared, Op.upsert "n2" mdShared,
        Op.remove "n1"]) := by
  intro h
  have h2 := (h "h.local").2 ⟨"n2", mdShared, by decide, by decide⟩
  exact absurd h2 (by decide)

/-- Claim C2 (amended): the iff store invariant holds for every operation
sequence in which distinct instance names never share a server identity and
an instance keeps one server across upserts (formally: upsert metadata
assigns servers through some injective function of the instance name).
Without that restriction the invariant fails, because removing one of
several instances sharing a server deletes the shared snapshot. -/
theorem C2_amended_theorem (srv : String → String) (hinj : Function.Injective srv)
    (ops : List Op) (hops : ∀ n si, Op.upsert n si ∈ ops → si.server = srv n) :
    StoreInv (runOps st0 ops) :=
  (goodSt_runOps srv hinj ops st0 hops (goodSt_st0 srv)).2.2

def mdW : ServiceInfo := ⟨"host1", ["10.0.0.5"], [], 120⟩

/-- Witness for the amended C2 on a concrete add-then-remove sequence. -/
theorem C2_amended_witness :
    StoreInv (runOps st0 [Op.upsert "host1" mdW, Op.remove "host1"]) :=
  C2_amended_theorem id Function.injective_id _ (by
    intro n si h
    simp only [List.mem_cons, List.not_mem_nil, or_false] at h
    rcases h with h | h
    · cases h; decide
    · cases h)

def mdA : ServiceInfo := ⟨"h.a", ["1.2.3.4"], [], 100⟩

def mdB : ServiceInfo := ⟨"h.b", ["5.6.7.8"], [], 100⟩

/-- Counterexample to claim C4 as stated: two upserts whose metadata server
values h.a and h.b share the first label h do not compare against and update
one shared store entry: after both upserts the server store holds two
distinct entries, keyed by the full server strings, and the first entry
still carries the first snapshot. -/
theorem C4_counterexample :
    firstLabel mdA.server = firstLabel mdB.server
    ∧ dget "h.a" (runOps st0 [Op.upsert "n1" mdA, Op.upsert "n2" mdB]).servers
        = some (0, snapOf mdA)
    ∧ dget "h.b" (runOps st0 [Op.upsert "n1" mdA, Op.upsert "n2" mdB]).servers
        = some (1, snapOf mdB)
    ∧ (runOps st0 [Op.upsert "n1" mdA, Op.upsert "n2" mdB]).servers.length = 2 := by
  decide

/-- Claim C4 (amended): an upsert consults and persists the stored snapshot
under the full metadata server string, not under the first label; the first
dot-delimited label is applied only to the owner names of the DNS mutations
issued by server_updated. -/
theorem C4_amended_theorem (st : St) (f : Nat → Bool) (name : String)
    (si : ServiceInfo) (h : IdsBelow st) :
    (service_updated st f name si).1.servers
        = dset si.server (st.counter, snapOf si) st.servers
    ∧ ∀ op ∈ server_updated si.server (snapOf si),
        dnsOpName op = firstLabel si.server := by
  constructor
  · rw [service_updated_state st f name si
      (fun p hp => Nat.ne_of_lt (h (si.server, p) (dget_mem _ _ _ hp)))]
  · intro op hop
    unfold server_updated at hop
    cases h4 : (snapOf si).ipv4_address <;> cases h6 : (snapOf si).ipv6_address <;>
      simp [h4, h6] at hop
    · rw [hop]; rfl
    · rw [hop]; rfl
    · rcases hop with hop | hop <;> rw [hop] <;> rfl

/-- Witness for the amended C4 at the empty state with concrete metadata. -/
theorem C4_amended_witness :
    (service_updated st0 nofail "inst" mdEx).1.servers
        = dset mdEx.server (st0.counter, snapOf mdEx) st0.servers
    ∧ ∀ op ∈ server_updated mdEx.server (snapOf mdEx),
        dnsOpName op = firstLabel mdEx.server :=
  C4_amended_theorem st0 nofail "inst" mdEx (by intro p hp; simp [st0] at hp)

/-- Claim C5: for every upsert (the change comparison always reports a
difference when the stored allocation ids predate the counter, which holds
along every run), the trace starts with the store commit of the new
snapshot, every later event of the step is a DNS mutation, and the store
holds the new snapshot in the resulting state whatever the outcome of the
DNS sends, in particular when a send fails with an error. -/
theorem C5_theorem (st : St) (f : Nat → Bool) (name : String) (si : ServiceInfo)
    (h : IdsBelow st) :
    (service_updated st f name si).2.1
        = Ev.persist si.server (snapOf si) :: (service_updated st f name si).2.1.tail
    ∧ (∀ e ∈ (service_updated st f name si).2.1.tail, isDnsEv e = true)
    ∧ dget si.server (service_updated st f name si).1.servers
        = some (st.counter, snapOf si) := by
  have h2 : ∀ p, dget si.server st.servers = some p → p.1 ≠ st.counter :=
    fun p hp => Nat.ne_of_lt (h (si.server, p) (dget_mem _ _ _ hp))
  refine ⟨?_, ?_, ?_⟩
  · rw [service_updated_evs st f name si h2]
    rfl
  · rw [service_updated_evs st f name si h2]
    intro e he
    exact issueGo_dns f _ 0 e (by simpa using he)
  · rw [service_updated_state st f name si h2]
    exact dget_dset_self _ _ _

def failAll : Nat → Bool := fun _ => true

/-- Witness for C5 at the empty state with a DNS oracle that fails every
send: the snapshot is committed first and survives the error. -/
theorem C5_witness :
    (service_updated st0 failAll "inst" mdEx).2.1
        = Ev.persist mdEx.server (snapOf mdEx)
            :: (service_updated st0 failAll "inst" mdEx).2.1.tail
    ∧ (∀ e ∈ (service_updated st0 failAll "inst" mdEx).2.1.tail, isDnsEv e = true)
    ∧ dget mdEx.server (service_updated st0 failAll "inst" mdEx).1.servers
        = some (st0.counter, snapOf mdEx) :=
  C5_theorem st0 failAll "inst" mdEx (by intro p hp; simp [st0] at hp)

end MdnsMirror
